import Mathlib

set_option autoImplicit false
set_option maxRecDepth 200000

namespace Plink2

/-- Bytes are modelled as natural numbers below 256. -/
abbrev Byte := Fin 256

/-- Constant `kDecompressChunkSizeX`, the fixed I/O and decompression unit.
The error string in the source ("must be at least max(1 MiB, dst_capacity - 1 MiB)")
pins its value at 1 MiB. -/
def kDecompressChunkSizeX : Nat := 1048576

/-- Type `FileCompressionType` from the source header. -/
inductive FileCompressionType where
  | uncompressed
  | gzip
  | bgzf
  | zstd
deriving DecidableEq, Repr

/-- Result codes (`PglErr`) relevant to this translation unit. -/
inductive PglErr where
  | success
  | eof
  | nomem
  | openFail
  | readFail
  | decompressFail
  | malformedInput
  | improperFunctionCall
deriving DecidableEq, Repr

/-- Word `magic4`: the little-endian 32-bit value obtained by
`memcpy(&magic4, buf, 4)` from the first four probed bytes (the source targets
little-endian machines; the ARM guard in the file rules out the others). -/
def magic4 (b0 b1 b2 b3 : Byte) : Nat :=
  b0.val + 256 * b1.val + 65536 * b2.val + 16777216 * b3.val

/-- Modelled from the spec: `IsZstdFrame` lives in a header that is not under
`src/`.  Spec section 6: a Zstd file is recognised by the frame magic bytes
`28 B5 2F FD`, i.e. the little-endian 32-bit word `0xFD2FB528`. -/
def IsZstdFrame (m : Nat) : Bool :=
  m == 0xFD2FB528

/-- Modelled from the spec: `IsBgzfHeader` lives in a header that is not under
`src/`.  Spec sections 4.1 and 6: a full 16-byte check of a gzip header with
the deflate method byte (`1F 8B 08`), the FEXTRA flag bit set, XLEN = 6 and a
`BC` extra subfield of length 2 carrying BSIZE, i.e. bytes 10..15 equal
`06 00 42 43 02 00`. -/
def IsBgzfHeader (buf : List Byte) : Bool :=
  buf.getD 0 0 == 0x1f && buf.getD 1 0 == 0x8b && buf.getD 2 0 == 0x08 &&
  (buf.getD 3 0).val &&& 4 == 4 &&
  buf.getD 10 0 == 6 && buf.getD 11 0 == 0 &&
  buf.getD 12 0 == 0x42 && buf.getD 13 0 == 0x43 &&
  buf.getD 14 0 == 2 && buf.getD 15 0 == 0

/-- Bytes obtained by the 16-byte probe `fread(buf, 1, 16, infile)` on a file
with contents `file`. -/
def probeBytes (file : List Byte) : List Byte :=
  file.take 16

/-- Byte `i` of the probe buffer. -/
def probeByte (file : List Byte) (i : Nat) : Byte :=
  (probeBytes file).getD i 0

/-- Number of bytes the 16-byte probe actually returns (`nbytes`). -/
def probeCount (file : List Byte) : Nat :=
  min file.length 16

/-- Word `magic4` of the probe buffer. -/
def probeMagic4 (file : List Byte) : Nat :=
  magic4 (probeByte file 0) (probeByte file 1) (probeByte file 2) (probeByte file 3)

/-- Classification performed by the standalone `GetFileType` (source lines
24-57) on a file whose byte contents are `file`: it reads up to 16 bytes,
returns Uncompressed below 4 bytes, then tests the Zstd frame magic, then the
two gzip ID bytes via a `uint16_t` cast of `magic4`, and finally distinguishes
Bgzf from Gzip by `nbytes == 16 && IsBgzfHeader`.  The OS-error paths
(`fopen`/`fread` failures) are outside the model. -/
def GetFileTypeClassify (file : List Byte) : FileCompressionType :=
  if probeCount file < 4 then .uncompressed
  else if IsZstdFrame (probeMagic4 file) then .zstd
  else if !(probeMagic4 file % 65536 == 0x8b1f) then .uncompressed
  else if probeCount file == 16 && IsBgzfHeader (probeBytes file) then .bgzf
  else .gzip

/-- Classification assigned by `TextRfileOpenInternal` (source lines 153-232):
`file_type` starts as `kFileUncompressed` and is changed only when at least 4
bytes were probed and either the Zstd frame magic matches or the first three
bytes match gzip-ID-plus-deflate, tested as `(magic4 << 8) == 0x088b1f00` in
32-bit arithmetic. -/
def openInternalClassify (file : List Byte) : FileCompressionType :=
  if 4 ≤ probeCount file then
    if IsZstdFrame (probeMagic4 file) then .zstd
    else if (probeMagic4 file * 256) % 4294967296 == 0x088b1f00 then
      if probeCount file == 16 && IsBgzfHeader (probeBytes file) then .bgzf else .gzip
    else .uncompressed
  else .uncompressed

/-- Ordered classification rules exactly as claim C5 states them: fewer than 4
bytes gives Uncompressed; a Zstd frame magic gives Zstd; bytes `1F 8B 08` give
Bgzf when exactly 16 bytes were read and they form a valid BGZF header and
Gzip otherwise; anything else gives Uncompressed. -/
def magicProbeRulesC5 (file : List Byte) : FileCompressionType :=
  if probeCount file < 4 then .uncompressed
  else if IsZstdFrame (probeMagic4 file) then .zstd
  else if probeByte file 0 == 0x1f && probeByte file 1 == 0x8b && probeByte file 2 == 0x08 then
    if probeCount file == 16 && IsBgzfHeader (probeBytes file) then .bgzf else .gzip
  else .uncompressed

theorem magic4_shl8_eq_iff (b0 b1 b2 b3 : Byte) :
    (magic4 b0 b1 b2 b3 * 256) % 4294967296 = 0x088b1f00 ↔
      (b0.val = 0x1f ∧ b1.val = 0x8b ∧ b2.val = 0x08) := by
  obtain ⟨v0, h0⟩ := b0
  obtain ⟨v1, h1⟩ := b1
  obtain ⟨v2, h2⟩ := b2
  obtain ⟨v3, h3⟩ := b3
  simp only [magic4]
  omega

theorem magic4_u16_eq_iff (b0 b1 b2 b3 : Byte) :
    magic4 b0 b1 b2 b3 % 65536 = 0x8b1f ↔ (b0.val = 0x1f ∧ b1.val = 0x8b) := by
  obtain ⟨v0, h0⟩ := b0
  obtain ⟨v1, h1⟩ := b1
  obtain ⟨v2, h2⟩ := b2
  obtain ⟨v3, h3⟩ := b3
  simp only [magic4]
  omega

theorem gzDeflateCondEq (file : List Byte) :
    ((probeMagic4 file * 256) % 4294967296 == 0x088b1f00) =
      (probeByte file 0 == 0x1f && probeByte file 1 == 0x8b && probeByte file 2 == 0x08) := by
  have hv0 : ((0x1f : Byte)).val = 31 := by decide
  have hv1 : ((0x8b : Byte)).val = 139 := by decide
  have hv2 : ((0x08 : Byte)).val = 8 := by decide
  rw [Bool.eq_iff_iff]
  simp only [beq_iff_eq, Bool.and_eq_true]
  rw [probeMagic4, magic4_shl8_eq_iff]
  constructor
  · rintro ⟨h0, h1, h2⟩
    exact ⟨⟨Fin.ext (by omega), Fin.ext (by omega)⟩, Fin.ext (by omega)⟩
  · rintro ⟨⟨e0, e1⟩, e2⟩
    rw [e0, e1, e2]
    exact ⟨hv0, hv1, hv2⟩

theorem gzIdCondEq (file : List Byte) :
    ((probeMagic4 file % 65536) == 0x8b1f) =
      (probeByte file 0 == 0x1f && probeByte file 1 == 0x8b) := by
  have hv0 : ((0x1f : Byte)).val = 31 := by decide
  have hv1 : ((0x8b : Byte)).val = 139 := by decide
  rw [Bool.eq_iff_iff]
  simp only [beq_iff_eq, Bool.and_eq_true]
  rw [probeMagic4, magic4_u16_eq_iff]
  constructor
  · rintro ⟨h0, h1⟩
    exact ⟨Fin.ext (by omega), Fin.ext (by omega)⟩
  · rintro ⟨e0, e1⟩
    rw [e0, e1]
    exact ⟨hv0, hv1⟩

/-- C5: for every initial byte content, the classification computed by
`TextRfileOpenInternal` agrees with the ordered rules stated in the claim:
fewer than 4 probed bytes gives Uncompressed, a Zstd frame magic gives Zstd,
bytes `1F 8B 08` give Bgzf exactly when 16 bytes were read and form a valid
BGZF header and Gzip otherwise, and anything else gives Uncompressed. -/
theorem open_classify_follows_probe_rules (file : List Byte) :
    openInternalClassify file = magicProbeRulesC5 file := by
  unfold openInternalClassify magicProbeRulesC5
  rw [gzDeflateCondEq]
  rcases Nat.lt_or_ge (probeCount file) 4 with h4 | h4
  · rw [if_neg (Nat.not_le.mpr h4), if_pos h4]
  · rw [if_pos h4, if_neg (Nat.not_lt.mpr h4)]

/-- Probe contents that begin with the two gzip ID bytes but whose third byte
is not the deflate method byte: the inputs on which `GetFileType` (which tests
only two bytes) and `TextRfileOpenInternal` (which also requires `08`)
disagree. -/
def gzipIdNoDeflate (file : List Byte) : Bool :=
  decide (4 ≤ probeCount file) && probeByte file 0 == 0x1f &&
    probeByte file 1 == 0x8b && !(probeByte file 2 == 0x08)

theorem isBgzfHeader_third_byte (file : List Byte)
    (h : IsBgzfHeader (probeBytes file) = true) : probeByte file 2 = 0x08 := by
  unfold IsBgzfHeader at h
  simp only [Bool.and_eq_true, beq_iff_eq] at h
  exact h.1.1.1.1.1.1.1.2

theorem zstd_first_byte (file : List Byte)
    (h : IsZstdFrame (probeMagic4 file) = true) : probeByte file 0 = 0x28 := by
  unfold IsZstdFrame at h
  rw [beq_iff_eq] at h
  unfold probeMagic4 magic4 at h
  have h0 := (probeByte file 0).isLt
  have h1 := (probeByte file 1).isLt
  have h2 := (probeByte file 2).isLt
  have h3 := (probeByte file 3).isLt
  have hv : ((0x28 : Byte)).val = 40 := by decide
  exact Fin.ext (by omega)

/-- Example prefix: gzip ID bytes with a stored (non-deflate) method byte. -/
def gzIdStoredExample : List Byte := [0x1f, 0x8b, 0x00, 0x00]

/-- C10, counterexample: on the 4-byte prefix `1F 8B 00 00` the standalone
`GetFileType` classifies Gzip while `TextRfileOpenInternal` leaves the file
Uncompressed, so the two classifications are not equal for every prefix. -/
theorem getFileType_open_disagree_counterexample :
    GetFileTypeClassify gzIdStoredExample = FileCompressionType.gzip ∧
    openInternalClassify gzIdStoredExample = FileCompressionType.uncompressed ∧
    GetFileTypeClassify gzIdStoredExample ≠ openInternalClassify gzIdStoredExample := by
  decide

/-- C10 (amended): the classification computed by `GetFileType` equals the one
`TextRfileOpenInternal` assigns except on prefixes of at least 4 bytes whose
first two bytes are `1F 8B` and whose third byte is not `08`; on exactly those
prefixes `GetFileType` reports Gzip while the open path reports Uncompressed. -/
theorem getFileType_vs_open_classify (file : List Byte) :
    GetFileTypeClassify file =
      (if gzipIdNoDeflate file then FileCompressionType.gzip else openInternalClassify file) ∧
    (if gzipIdNoDeflate file then FileCompressionType.uncompressed else GetFileTypeClassify file) =
      openInternalClassify file := by
  rcases Nat.lt_or_ge (probeCount file) 4 with h4 | h4
  · have hc : gzipIdNoDeflate file = false := by
      unfold gzipIdNoDeflate
      simp [Nat.not_le.mpr h4]
    rw [hc]
    unfold GetFileTypeClassify openInternalClassify
    rw [if_pos h4, if_neg (Nat.not_le.mpr h4)]
    simp
  · by_cases hz : IsZstdFrame (probeMagic4 file) = true
    · have hb0 : probeByte file 0 = 0x28 := zstd_first_byte file hz
      have hc : gzipIdNoDeflate file = false := by
        unfold gzipIdNoDeflate
        rw [hb0]
        simp
      rw [hc]
      unfold GetFileTypeClassify openInternalClassify
      rw [if_neg (Nat.not_lt.mpr h4), if_pos h4, if_pos hz, if_pos hz]
      simp
    · by_cases hb0 : probeByte file 0 = (0x1f : Byte) <;>
        by_cases hb1 : probeByte file 1 = (0x8b : Byte) <;>
        by_cases hb2 : probeByte file 2 = (0x08 : Byte) <;>
        · have hid := gzIdCondEq file
          have hdef := gzDeflateCondEq file
          have hbg : ∀ h : IsBgzfHeader (probeBytes file) = true, probeByte file 2 = 0x08 :=
            isBgzfHeader_third_byte file
          unfold GetFileTypeClassify openInternalClassify gzipIdNoDeflate
          rw [if_neg (Nat.not_lt.mpr h4), if_pos h4]
          rcases hIs : IsBgzfHeader (probeBytes file) with _ | _ <;>
            simp_all [hb0, hb1, hb2, Nat.not_lt.mpr h4]

/-- Value `next_dst_capacity` computed by the buffer-growth code of
`TextRfileAdvance` (source lines 423-426) and `TextRstreamThread` (lines
753-756), in 32-bit unsigned arithmetic: start from
`enforced_max_line_blen + kDecompressChunkSizeX` and replace it with
`dst_capacity * 2` when half of it exceeds `dst_capacity`. -/
def nextDstCapacity (enforced dstCap : Nat) : Nat :=
  if dstCap < ((enforced + kDecompressChunkSizeX) % 4294967296) / 2 then
    (dstCap * 2) % 4294967296
  else (enforced + kDecompressChunkSizeX) % 4294967296

/-- Outcome of one buffer-resize decision. -/
inductive ResizeOutcome where
  | nomem
  | resized (newCapacity : Nat) (inPlace : Bool)
deriving DecidableEq, Repr

/-- Buffer-resize decision of `TextRfileAdvance` lines 419-447 (and its twin in
`TextRstreamThread`), reached when the carry-over does not fit
(`dst_rem >= dst_capacity - kDecompressChunkSizeX`): a consumer-owned buffer
gives Nomem; otherwise the capacity becomes `nextDstCapacity`, except that
non-LP64 (32-bit) targets fail with Nomem from `0x80000000` up; the grow is an
in-place `realloc` exactly when `dst_offset == 0` and a fresh `malloc` plus
copy of the `dst_rem` carry bytes otherwise. -/
def bufResizeStep (lp64 dstOwnedByConsumer : Bool) (enforced dstCap dstOffset : Nat) :
    ResizeOutcome :=
  if dstOwnedByConsumer then .nomem
  else if !lp64 && 2147483648 ≤ nextDstCapacity enforced dstCap then .nomem
  else .resized (nextDstCapacity enforced dstCap) (dstOffset == 0)

/-- C2, counterexample: with `enforced_max_line_blen = 10 MiB` and
`dst_capacity = 2 MiB` the code grows the reader-owned buffer to 4 MiB, not to
`max(enforced_max_line_blen + ChunkSize, 2*dst_capacity) = 11 MiB` as the
claim states. -/
theorem bufResize_not_max_counterexample :
    bufResizeStep true false (10 * kDecompressChunkSizeX) (2 * kDecompressChunkSizeX) 0 =
      ResizeOutcome.resized (4 * kDecompressChunkSizeX) true ∧
    4 * kDecompressChunkSizeX ≠
      max (10 * kDecompressChunkSizeX + kDecompressChunkSizeX)
        (2 * (2 * kDecompressChunkSizeX)) := by
  decide

theorem nextDstCapacity_eq (e cap : Nat) (h1 : e + kDecompressChunkSizeX < 4294967296)
    (h2 : cap * 2 < 4294967296) :
    nextDstCapacity e cap =
      if e + kDecompressChunkSizeX = 2 * cap + 1 then e + kDecompressChunkSizeX
      else min (e + kDecompressChunkSizeX) (2 * cap) := by
  unfold nextDstCapacity
  rw [Nat.mod_eq_of_lt h1, Nat.mod_eq_of_lt h2]
  by_cases hgt : cap < (e + kDecompressChunkSizeX) / 2
  · rw [if_pos hgt, if_neg (by omega)]
    omega
  · rw [if_neg hgt]
    by_cases hb : e + kDecompressChunkSizeX = 2 * cap + 1
    · rw [if_pos hb]
    · rw [if_neg hb]
      omega

/-- C2 (amended): when `TextRfileAdvance` must grow a reader-owned buffer, the
new capacity is `min(enforced_max_line_blen + ChunkSize, 2*dst_capacity)`
(the code doubles the capacity until the `enforced_max_line_blen + ChunkSize`
ceiling takes over; at the integer-division boundary
`enforced + ChunkSize = 2*dst_capacity + 1` it is that value instead of the
min), the realloc is in place exactly when the unconsumed data starts at
`dst`, and on 32-bit targets any new capacity of `0x80000000` or more gives
Nomem. -/
theorem bufResize_growth (lp64 own : Bool) (e cap off : Nat)
    (h1 : e + kDecompressChunkSizeX < 4294967296) (h2 : cap * 2 < 4294967296) :
    (own = true → bufResizeStep lp64 own e cap off = ResizeOutcome.nomem) ∧
    (own = false →
      bufResizeStep lp64 own e cap off =
        (if lp64 = false ∧ 2147483648 ≤ nextDstCapacity e cap then ResizeOutcome.nomem
         else ResizeOutcome.resized (nextDstCapacity e cap) (off == 0))) ∧
    nextDstCapacity e cap =
      (if e + kDecompressChunkSizeX = 2 * cap + 1 then e + kDecompressChunkSizeX
       else min (e + kDecompressChunkSizeX) (2 * cap)) := by
  refine ⟨?_, ?_, nextDstCapacity_eq e cap h1 h2⟩
  · intro h
    rw [h]
    unfold bufResizeStep
    rw [if_pos rfl]
  · intro h
    rw [h]
    unfold bufResizeStep
    rw [if_neg (by simp)]
    cases lp64 <;> simp

/-- C2, witness for the amended growth characterization at a concrete input. -/
theorem bufResize_growth_witness :
    bufResizeStep true false (10 * kDecompressChunkSizeX) (2 * kDecompressChunkSizeX) 3 =
      (if (true : Bool) = false ∧
          2147483648 ≤ nextDstCapacity (10 * kDecompressChunkSizeX) (2 * kDecompressChunkSizeX)
       then ResizeOutcome.nomem
       else ResizeOutcome.resized
         (nextDstCapacity (10 * kDecompressChunkSizeX) (2 * kDecompressChunkSizeX)) (3 == 0)) ∧
    nextDstCapacity (10 * kDecompressChunkSizeX) (2 * kDecompressChunkSizeX) =
      (if 10 * kDecompressChunkSizeX + kDecompressChunkSizeX =
          2 * (2 * kDecompressChunkSizeX) + 1
       then 10 * kDecompressChunkSizeX + kDecompressChunkSizeX
       else min (10 * kDecompressChunkSizeX + kDecompressChunkSizeX)
         (2 * (2 * kDecompressChunkSizeX))) := by
  have h := bufResize_growth true false (10 * kDecompressChunkSizeX)
    (2 * kDecompressChunkSizeX) 3 (by decide) (by decide)
  exact ⟨h.2.1 rfl, h.2.2⟩

/-- Distinct `errmsg` values attached to the ImproperFunctionCall failures of
`TextRfileOpenInternal`. -/
inductive OpenCheckFail where
  | alreadyOpen
  | enforcedMaxBlenTooSmall
  | dstCapacityTooSmall
deriving DecidableEq, Repr

/-- Parameter validation of `TextRfileOpenInternal` (source lines 122-148),
performed before any file is opened; every `some` is returned as
`kPglRetImproperFunctionCall`.  `syncPath` is true when a `textRFILE*` was
passed (the sync reader), `dstSupplied` when the caller provided `dst`.  The
sum `enforced_max_line_blen + kDecompressChunkSizeX` is a `uint32_t` sum as in
the source.  The token-mode `assert` on line 147 compiles away under NDEBUG
and is not part of the returned-error behaviour. -/
def openInternalChecks (alreadyOpen syncPath dstSupplied : Bool)
    (enforced dstCap : Nat) : Option OpenCheckFail :=
  if alreadyOpen then some .alreadyOpen
  else if enforced != 0 || syncPath then
    if enforced < kDecompressChunkSizeX then some .enforcedMaxBlenTooSmall
    else if dstSupplied then
      if dstCap < 2 * kDecompressChunkSizeX then some .dstCapacityTooSmall
      else if (enforced + kDecompressChunkSizeX) % 4294967296 < dstCap then
        some .enforcedMaxBlenTooSmall
      else none
    else none
  else none

/-- Buffer installation of `TextRfileOpenInternal` (source lines 154-164):
capacity and the `dst_owned_by_consumer` flag, for a caller-supplied versus a
null `dst`. -/
def openInstallBuffer (dstSupplied : Bool) (dstCap : Nat) : Nat × Bool :=
  if dstSupplied then (dstCap, true) else (2 * kDecompressChunkSizeX, false)

/-- Failure condition exactly as claim C8 states it: the caller-supplied-dst
disjunct is not conditioned on line mode or on the sync path. -/
def claimC8FailCond (alreadyOpen syncPath dstSupplied : Bool)
    (enforced dstCap : Nat) : Bool :=
  alreadyOpen ||
    ((enforced != 0 || syncPath) && decide (enforced < kDecompressChunkSizeX)) ||
    (dstSupplied && (decide (dstCap < 2 * kDecompressChunkSizeX) ||
      decide (enforced + kDecompressChunkSizeX < dstCap)))

/-- Failure condition with the caller-supplied-dst checks nested under the
line-mode-or-sync-path test, as the source nests them. -/
def amendedC8FailCond (alreadyOpen syncPath dstSupplied : Bool)
    (enforced dstCap : Nat) : Bool :=
  alreadyOpen ||
    ((enforced != 0 || syncPath) &&
      (decide (enforced < kDecompressChunkSizeX) ||
        (dstSupplied && (decide (dstCap < 2 * kDecompressChunkSizeX) ||
          decide ((enforced + kDecompressChunkSizeX) % 4294967296 < dstCap)))))

/-- C8, counterexample: opening the async reader in token mode
(`enforced_max_line_blen = 0`, no `textRFILE*`) with a caller-supplied `dst`
of capacity 5 bytes passes the validation, although the claim's condition
(capacity below `2*ChunkSize`) says it must fail with ImproperFunctionCall. -/
theorem openChecks_token_mode_counterexample :
    openInternalChecks false false true 0 5 = none ∧
    claimC8FailCond false false true 0 5 = true := by
  decide

/-- C8 (amended): `TextRfileOpenInternal` fails with ImproperFunctionCall,
before opening any file, exactly when the reader is already open, or when
line mode or the sync path is in use (`enforced_max_line_blen != 0 || trfp`)
and either `enforced_max_line_blen < ChunkSize` or a caller-supplied `dst`
comes with `dst_capacity < 2*ChunkSize` or with
`enforced_max_line_blen + ChunkSize < dst_capacity` (32-bit sum); in async
token mode the dst checks are skipped.  For valid parameters with a null
`dst` it installs a reader-owned buffer of exactly `2*ChunkSize`. -/
theorem openChecks_characterization (alreadyOpen syncPath dstSupplied : Bool)
    (enforced dstCap : Nat) :
    (openInternalChecks alreadyOpen syncPath dstSupplied enforced dstCap).isSome =
      amendedC8FailCond alreadyOpen syncPath dstSupplied enforced dstCap ∧
    openInstallBuffer false dstCap = (2 * kDecompressChunkSizeX, false) := by
  constructor
  · unfold openInternalChecks amendedC8FailCond
    cases alreadyOpen <;> cases syncPath <;> cases dstSupplied <;>
      simp <;> split_ifs <;> simp_all
  · rfl

/-- Search for the first occurrence of byte `b` at offsets
`[lo, lo + len)` of `buf` (`memchr(&buf[lo], b, len)`).  Offsets beyond the
valid length of the buffer hold unspecified bytes in C; the model treats them
as non-matching. -/
def memchrIdx (buf : List Nat) (b lo len : Nat) : Option Nat :=
  match len with
  | 0 => none
  | len' + 1 =>
    if buf.getD lo (b + 1) = b then some lo else memchrIdx buf b (lo + 1) len'

/-- Search for the last occurrence of byte `b` at offsets `[lo, lo + len)` of
`buf` (`Memrchr(&buf[lo], b, len)` of the missing header, documented by its
use: last match in the region). -/
def memrchrIdx (buf : List Nat) (b lo len : Nat) : Option Nat :=
  match len with
  | 0 => none
  | len' + 1 =>
    if buf.getD (lo + len') (b + 1) = b then some (lo + len')
    else memrchrIdx buf b lo len'

/-- Modelled from the spec: `LastSpaceOrEoln` lives in a header that is not
under `src/`; per the spec's token mode it finds the last whitespace-or-EOL
byte in the region, whitespace-or-EOL being bytes of value at most 32. -/
def lastSpaceOrEolnIdx (buf : List Nat) (lo len : Nat) : Option Nat :=
  match len with
  | 0 => none
  | len' + 1 =>
    if buf.getD (lo + len') 255 ≤ 32 then some (lo + len')
    else lastSpaceOrEolnIdx buf lo len'

/-- Scan loop of `IsPathologicallyLongLineOrTokenX` (source lines 281-289):
hop from newline to newline until one lies at or past
`known_line_end - (enforced_max_line_blen + 1)`; running out of newlines means
an overlong line.  `m` is the offset of the newline found so far; the fuel is
at least `buf.length + 1` at every call site, which the strictly increasing
`m` can never exhaust. -/
def pathLongScan (buf : List Nat) (e knownEnd : Nat) : Nat → Nat → Bool
  | _, 0 => false
  | m, fuel + 1 =>
    if knownEnd - (e + 1) ≤ m then false
    else
      match memchrIdx buf 10 (m + 1) e with
      | none => true
      | some m2 => pathLongScan buf e knownEnd m2 fuel

/-- Translation of `IsPathologicallyLongLineOrTokenX` (source lines 258-303).
`lineStart`, `loadStart` and `knownEnd` are offsets into `buf`; `tokenCap`
stands for the hardcoded `kMaxTokenBlenX` of the missing header. -/
def IsPathologicallyLongLineOrTokenX (buf : List Nat)
    (lineStart loadStart knownEnd e tokenCap : Nat) : Bool :=
  if e ≠ 0 then
    if knownEnd - lineStart ≤ e then false
    else if e ≤ loadStart - lineStart then true
    else
      match memchrIdx buf 10 loadStart (e - (loadStart - lineStart)) with
      | none => true
      | some m => pathLongScan buf e knownEnd m (buf.length + 1)
  else
    if knownEnd - lineStart ≤ tokenCap then false
    else if tokenCap ≤ loadStart - lineStart then true
    else (lastSpaceOrEolnIdx buf loadStart (tokenCap - (loadStart - lineStart))).isNone

/-- State of the sync reader (`textRFILE`) on an uncompressed input; the
decompressed byte stream is the file itself, so the plain-`fread` arm of
`TextRfileAdvance` is the decoder.  Pointers into `dst` are offsets; `buf`
holds the `dst_len` valid bytes of `dst`; `dstCap` is `dst_capacity`;
`fileRest` is the unread tail of the file.  The chunk size is passed as a
parameter `c` to the operations so that runs stay kernel-evaluable; the
source fixes it at `kDecompressChunkSizeX`. -/
structure TextRfileState where
  buf : List Nat
  dstCap : Nat
  consumeIter : Nat
  consumeStop : Nat
  dstOwned : Bool
  enforced : Nat
  fileRest : List Nat
  reterr : PglErr
deriving DecidableEq, Repr

/-- Result of the refill loop inside `TextRfileAdvance`. -/
inductive AdvanceLoopResult where
  | err (s : TextRfileState)
  | ok (s : TextRfileState) (loadStart : Nat)
deriving DecidableEq, Repr

/-- Outcome of one fill-and-scan pass: hand a terminal result back, or
re-enter the refill loop with the updated state. -/
inductive RefillStep where
  | done (r : AdvanceLoopResult)
  | again (s : TextRfileState)
deriving DecidableEq, Repr

/-- Fill-and-scan tail of one refill iteration of `TextRfileAdvance` (source
lines 448-585) on an uncompressed input: move the carry
`[orig_line_start, dst + dst_len)` to the front (`memmove` when the capacity
is kept, `realloc` or `malloc`+`memcpy` when it grows - the copied region is
the same), read into `[dst_rem, dst_capacity)`, then detect EOF, handle a
short read, locate the last newline of the loaded region, or re-enter the
loop.  The split of the plain `fread` into at most two reads of at most
`kMaxBytesPerIO` bytes (lines 456-478) has the same net effect as one read of
`dst_end - dst_iter` bytes, because a model read is short only at EOF. -/
def textRfileRefill (d0 : Nat) (s : TextRfileState) (cap : Nat) : RefillStep :=
  let carry := s.buf.drop d0
  let navail := cap - carry.length
  let taken := s.fileRest.take navail
  let rest := s.fileRest.drop navail
  let newbuf := carry ++ taken
  if newbuf.length = 0 then
    .done (.err { s with buf := newbuf, dstCap := cap, consumeIter := 0,
                         fileRest := rest, reterr := .eof })
  else if taken.length < navail then
    let newbuf2 := if newbuf.getLast? = some 10 then newbuf else newbuf ++ [10]
    .done (.ok { s with buf := newbuf2, dstCap := cap, consumeIter := 0,
                        consumeStop := newbuf2.length, fileRest := rest,
                        reterr := .success } carry.length)
  else
    match memrchrIdx newbuf 10 carry.length (newbuf.length - carry.length) with
    | some p =>
      .done (.ok { s with buf := newbuf, dstCap := cap, consumeIter := 0,
                          consumeStop := p + 1, fileRest := rest,
                          reterr := .success } carry.length)
    | none =>
      if s.enforced ≤ newbuf.length then
        .done (.err { s with buf := newbuf, dstCap := cap, consumeIter := 0,
                             fileRest := rest, reterr := .malformedInput })
      else
        .again { s with buf := newbuf, dstCap := cap, consumeIter := 0, fileRest := rest }

/-- Refill loop of `TextRfileAdvance` (source lines 408-586) on an
uncompressed input, LP64 target (the `0x80000000` capacity check exists only
on 32-bit targets).  `d0` is `orig_line_start - dst` as captured once at
entry (source line 404): the source never reassigns `orig_line_start` inside
the loop, so every iteration reuses this captured offset.  Fuel exhaustion
returns a Nomem state; call sites pass fuel larger than any possible
iteration count. -/
def textRfileAdvanceLoop (c d0 : Nat) : TextRfileState → Nat → AdvanceLoopResult
  | s, 0 => .err { s with reterr := .nomem }
  | s, fuel + 1 =>
    if s.buf.length - d0 < s.dstCap - c then
      match textRfileRefill d0 s s.dstCap with
      | .done r => r
      | .again s2 => textRfileAdvanceLoop c d0 s2 fuel
    else if s.dstOwned then .err { s with reterr := .nomem }
    else
      match textRfileRefill d0 s (nextDstCapacity s.enforced s.dstCap) with
      | .done r => r
      | .again s2 => textRfileAdvanceLoop c d0 s2 fuel

/-- Translation of `TextRfileAdvance` (source lines 398-614) on an
uncompressed input: return a latched result immediately, run the refill loop
with the entry `consume_stop` as the captured `orig_line_start`, then run the
pathological-line guard with `line_start = dst` and the final
`dst_load_start` (source line 587). -/
def textRfileAdvance (c tokenCap : Nat) (s : TextRfileState) : TextRfileState :=
  if s.reterr ≠ .success then s
  else
    match textRfileAdvanceLoop c s.consumeStop s
        (s.fileRest.length + s.enforced + s.dstCap + c + 4) with
    | .err s2 => s2
    | .ok s2 loadStart =>
      if IsPathologicallyLongLineOrTokenX s2.buf 0 loadStart s2.consumeStop
          s2.enforced tokenCap then
        { s2 with reterr := .malformedInput }
      else s2

/-- Open of the sync reader on an uncompressed file with a null caller `dst`
(source lines 112-232, uncompressed arm): install a reader-owned buffer of
`2 * c`, read the 16 probe bytes into `dst` (they stay as `dst_len` valid
bytes for an uncompressed file), and latch Eof for an empty file. -/
def textRfileOpenPlain (c e : Nat) (file : List Nat) : TextRfileState :=
  { buf := file.take 16, dstCap := 2 * c, consumeIter := 0, consumeStop := 0,
    dstOwned := false, enforced := e, fileRest := file.drop 16,
    reterr := if file.length = 0 then .eof else .success }

/-- Translation of `TextRfileRewind` (source lines 616-644) on an open
uncompressed reader: a no-op unless the latched error is success or Eof;
otherwise seek the file back to the start, clear the latched result, zero
`dst_len` and reset both consume offsets to `dst`.  The grown capacity
persists. -/
def textRfileRewindPlain (file : List Nat) (s : TextRfileState) : TextRfileState :=
  if s.reterr ≠ .success ∧ s.reterr ≠ .eof then s
  else { s with buf := [], consumeIter := 0, consumeStop := 0,
                fileRest := file, reterr := .success }

/-- Drive a full read: repeatedly consume the whole `[consume_iter,
consume_stop)` slice (the consumer walks `consume_iter` up to `consume_stop`
line by line) and call advance, collecting every yielded slice, until a
non-success result is latched. -/
def readAllSlices (c tokenCap : Nat) : TextRfileState → Nat → List (List Nat) × TextRfileState
  | s, 0 => ([], s)
  | s, fuel + 1 =>
    let s1 := textRfileAdvance c tokenCap s
    if s1.reterr = .success then
      let slice := s1.buf.take s1.consumeStop
      let r := readAllSlices c tokenCap { s1 with consumeIter := s1.consumeStop } fuel
      (slice :: r.1, r.2)
    else ([], s1)

/-- Concatenation the spec's byte-fidelity property expects: the decompressed
contents with one newline appended exactly when they are non-empty and do not
already end in one. -/
def byteFidelity (content : List Nat) : List Nat :=
  if content = [] then []
  else if content.getLast? = some 10 then content else content ++ [10]

/-- Lines of a byte stream: split after every newline byte; a trailing
segment without a final newline is kept as is. -/
def splitAfterNl (l : List Nat) : List (List Nat) :=
  l.foldr
    (fun b acc =>
      if b = 10 then [10] :: acc
      else
        match acc with
        | [] => [[b]]
        | seg :: rest => (b :: seg) :: rest)
    []

/-- Check for a line strictly longer than `e` bytes, the newline terminator
included. -/
def hasOverlongLine (content : List Nat) (e : Nat) : Bool :=
  (splitAfterNl content).any (fun seg => e < seg.length)

/-- Sanity check input, spec scenario 1: contents `a\nbb\nccc` with no
trailing newline. -/
def scenarioOneFile : List Nat := [97, 10, 98, 98, 10, 99, 99, 99]

/-- Model sanity check on spec scenario 1: the full read of `a\nbb\nccc`
yields slices concatenating to the contents plus one synthesized newline and
then latches Eof. -/
theorem model_scenario_one :
    (readAllSlices 32 999 (textRfileOpenPlain 32 128 scenarioOneFile) 20).1.flatten =
      byteFidelity scenarioOneFile ∧
    (readAllSlices 32 999 (textRfileOpenPlain 32 128 scenarioOneFile) 20).2.reterr =
      PglErr.eof := by
  decide

/-- Failing input for C1 (chunk size 32, `enforced_max_line_blen` 128,
reader-owned buffer of 64): line one ends at offset 58 near the end of the
first fill, and line two spans more than one fill, so the refill loop runs a
second iteration whose `dst_offset` is computed from the stale
`orig_line_start` and 59 bytes of line two are dropped. -/
def staleCarryFile : List Nat :=
  List.replicate 58 97 ++ [10] ++ List.replicate 64 98 ++ [10] ++ List.replicate 6 99

/-- C1, evaluation at the failing input: the full read runs to Eof but the
concatenation of the yielded slices is not the file contents with one
newline appended - 59 bytes of the second line are missing, because the
refill loop of `TextRfileAdvance` never updates `orig_line_start` (source
line 404) and its second iteration moves the carry from a stale offset. -/
theorem advance_drops_bytes_on_stale_carry :
    (readAllSlices 32 999 (textRfileOpenPlain 32 128 staleCarryFile) 40).2.reterr =
      PglErr.eof ∧
    (readAllSlices 32 999 (textRfileOpenPlain 32 128 staleCarryFile) 40).1.flatten ≠
      byteFidelity staleCarryFile := by
  decide

/-- Failing input for C3 (chunk size 32, `enforced_max_line_blen` 128):
a second line of 150 bytes (newline included), strictly longer than the
enforced maximum. -/
def overlongAcceptedFile : List Nat :=
  List.replicate 58 97 ++ [10] ++ List.replicate 149 98 ++ [10]

/-- C3, evaluation at the failing input: the input contains a line strictly
longer than `enforced_max_line_blen`, yet the reader finishes with Eof
instead of MalformedInput - the same stale-`orig_line_start` slip drops part
of the overlong line, so neither the `dst_len >= enforced_max_line_blen`
check nor `IsPathologicallyLongLineOrTokenX` ever sees it. -/
theorem overlong_line_not_detected :
    hasOverlongLine overlongAcceptedFile 128 = true ∧
    (readAllSlices 32 999 (textRfileOpenPlain 32 128 overlongAcceptedFile) 40).2.reterr =
      PglErr.eof := by
  decide

/-- Failing input for C9 (chunk size 32, `enforced_max_line_blen` 160,
reader-owned buffer of 64): the second advance carries 43 unfinished-line
bytes, which forces a buffer growth to capacity 128; the third advance then
loses bytes to the stale-carry slip.  After the rewind the second pass starts
at capacity 128, the fills land elsewhere, and a different number of bytes is
lost. -/
def rewindDivergeFile : List Nat :=
  List.replicate 20 97 ++ [10] ++ List.replicate 79 98 ++ [10] ++
    List.replicate 128 99 ++ [10]

/-- C9, evaluation at the failing input: the first full read ends in Eof, the
rewind performs exactly the resets the claim lists (the model's
`textRfileRewindPlain`), yet the second pass yields a different sequence of
lines (terminal lines of 49 versus 28 bytes), because the stale-carry slip
drops different bytes at the grown capacity. -/
theorem rewind_reread_line_sequences_differ :
    (readAllSlices 32 999 (textRfileOpenPlain 32 160 rewindDivergeFile) 40).2.reterr =
      PglErr.eof ∧
    splitAfterNl
        (readAllSlices 32 999 (textRfileOpenPlain 32 160 rewindDivergeFile) 40).1.flatten ≠
      splitAfterNl
        (readAllSlices 32 999
          (textRfileRewindPlain rewindDivergeFile
            (readAllSlices 32 999 (textRfileOpenPlain 32 160 rewindDivergeFile) 40).2)
          40).1.flatten := by
  decide

/-- Symbols of the compressed gzip stream as the inflate model consumes them:
a data symbol stands for compressed input that inflates to one output byte,
and the end symbol stands for the closing bytes of the member (final deflate
block end plus gzip trailer), which produce no output and move the stream to
`Z_STREAM_END`.  The gzip decoder is a black-box streaming primitive per spec
section 1; this is its contract-level model. -/
inductive GzSym where
  | data (b : Nat)
  | fin
deriving DecidableEq, Repr

/-- Return codes of the modelled `inflate`: the model produces no negative
codes and no `Z_NEED_DICT`, so those fatal arms of the source never fire. -/
inductive ZRet where
  | ok
  | streamEnd
deriving DecidableEq, Repr

/-- Result of one modelled `inflate(dsp, Z_SYNC_FLUSH)` call. -/
structure InflateResult where
  out : List Nat
  inRest : List GzSym
  ended : Bool
  zret : ZRet
deriving DecidableEq, Repr

/-- Core of the inflate model: consume input symbols emitting at most `w`
output bytes; stop with leftover input only when the window is full, and
consume the end symbol even when it is (zlib reads the trailer and reports
`Z_STREAM_END` regardless of `avail_out`). -/
def inflateGo : List GzSym → Nat → InflateResult
  | [], _ => ⟨[], [], false, .ok⟩
  | .fin :: rest, _ => ⟨[], rest, true, .streamEnd⟩
  | .data b :: rest, 0 => ⟨[], .data b :: rest, false, .ok⟩
  | .data b :: rest, w + 1 =>
    let r := inflateGo rest w
    ⟨b :: r.out, r.inRest, r.ended, r.zret⟩

/-- Modelled `inflate` call: after the stream has ended further calls consume
nothing and keep reporting `Z_STREAM_END`. -/
def inflateModel (ended : Bool) (inBuf : List GzSym) (w : Nat) : InflateResult :=
  if ended then ⟨[], inBuf, true, .streamEnd⟩ else inflateGo inBuf w

/-- State of `GzRawDecompressStream`: the unconsumed part of the owned input
buffer (`[next_in, next_in + avail_in)`), whether the inflate stream has
reached its end, the unread tail of the file, and the `feof` flag. -/
structure GzRawStream where
  inBuf : List GzSym
  ended : Bool
  fileRest : List GzSym
  eofFlag : Bool
deriving DecidableEq, Repr

/-- Error string of the truncation failure. -/
def kShortErrRfileTruncatedGz : String :=
  "GzRawStreamRead: gzipped file appears to be truncated"

/-- Result of a `GzRawStreamRead` call.  `out` holds the bytes inflated into
the output window; the source advances `*dst_iterp` past them only on the
success returns. -/
structure GzReadResult where
  reterr : PglErr
  errmsg : Option String
  out : List Nat
  st : GzRawStream
deriving DecidableEq, Repr

/-- Do-while loop of `GzRawStreamRead` (source lines 313-348): run `inflate`
when `avail_in` is nonzero (a skipped call leaves the iteration's `zerr` at
its `Z_OK` initialisation), break with leftover input when the window filled,
otherwise refill `kDecompressChunkSizeX` bytes from the file; a zero-byte
read at EOF is the truncation error exactly when `zerr == Z_OK` and a normal
break otherwise; iterate while the window is not full.  `cChunk` is the model
chunk size; the file-error arm (`ferror`) is outside the model.  Fuel
exhaustion returns a ReadFail artifact; call sites pass fuel above any
possible iteration count. -/
def gzRawStreamReadLoop (cChunk w : Nat) : GzRawStream → List Nat → Nat → GzReadResult
  | s, outAcc, 0 => ⟨.readFail, none, outAcc, s⟩
  | s, outAcc, fuel + 1 =>
    let res := inflateModel s.ended s.inBuf (w - outAcc.length)
    let zerr := if s.inBuf.isEmpty then ZRet.ok else res.zret
    let out2 := outAcc ++ res.out
    let s2 : GzRawStream := { s with inBuf := res.inRest, ended := res.ended }
    if !res.inRest.isEmpty then ⟨.success, none, out2, s2⟩
    else
      let taken := s2.fileRest.take cChunk
      let s3 : GzRawStream := { s2 with
        inBuf := taken
        fileRest := s2.fileRest.drop cChunk
        eofFlag := s2.eofFlag || decide (taken.length < cChunk) }
      if taken.isEmpty then
        if zerr = ZRet.ok then ⟨.decompressFail, some kShortErrRfileTruncatedGz, out2, s3⟩
        else ⟨.success, none, out2, s3⟩
      else if out2.length = w then ⟨.success, none, out2, s3⟩
      else gzRawStreamReadLoop cChunk w s3 out2 fuel

/-- Translation of `GzRawStreamRead` (source lines 307-351): immediately
successful when `avail_in` is zero and the file is at EOF, otherwise the
refill loop with output window of `w` bytes. -/
def GzRawStreamRead (cChunk w : Nat) (s : GzRawStream) : GzReadResult :=
  if s.inBuf.isEmpty && s.eofFlag then ⟨.success, none, [], s⟩
  else gzRawStreamReadLoop cChunk w s [] (s.fileRest.length + 2)

/-- Symbol stream of a gzip file whose member inflates to `payload` and whose
final member bytes (trailer included) are present exactly when `terminated`
is true. -/
def gzFileSyms (payload : List Nat) (terminated : Bool) : List GzSym :=
  payload.map .data ++ (if terminated then [.fin] else [])

/-- Decoder state seeded by `TextRfileOpenInternal` and `GzRawInit` (source
lines 72-90 and 185-221): the 16 probe bytes become the initial `avail_in`
region and `feof` reflects whether the probe exhausted the file. -/
def gzRawInitFromOpen (file : List GzSym) : GzRawStream :=
  { inBuf := file.take 16, ended := false, fileRest := file.drop 16,
    eofFlag := decide (file.length < 16) }

theorem inflateGo_all_data (l : List Nat) (w : Nat) (h : l.length <= w) :
    inflateGo (l.map .data) w = ⟨l, [], false, .ok⟩ := by
  induction l generalizing w with
  | nil => rfl
  | cons b rest ih =>
    cases w with
    | zero => simp at h
    | succ w' =>
      simp only [List.map_cons, inflateGo]
      rw [ih w' (by simpa using h)]

theorem inflateGo_data_fin (l : List Nat) (w : Nat) (h : l.length <= w) :
    inflateGo (l.map .data ++ [.fin]) w = ⟨l, [], true, .streamEnd⟩ := by
  induction l generalizing w with
  | nil => rfl
  | cons b rest ih =>
    cases w with
    | zero => simp at h
    | succ w' =>
      simp only [List.map_cons, List.cons_append, inflateGo, List.append_eq]
      rw [ih w' (by simpa using h)]

theorem gzLoop_spec (cChunk w : Nat) (hc : 1 ≤ cChunk) :
    ∀ fuel (q : List Nat) (t : Bool) (k : Nat) (outAcc : List Nat) (e : Bool),
      (gzFileSyms q t).length - k + 2 ≤ fuel →
      outAcc.length + q.length + 1 ≤ w →
      gzRawStreamReadLoop cChunk w
        ⟨(gzFileSyms q t).take k, false, (gzFileSyms q t).drop k, e⟩ outAcc fuel =
        ⟨(if t then PglErr.success else PglErr.decompressFail),
         (if t then none else some kShortErrRfileTruncatedGz),
         outAcc ++ q, ⟨[], t, [], true⟩⟩ := by
  intro fuel
  induction fuel with
  | zero =>
    intro q t k outAcc e hfuel hw
    omega
  | succ fuel ih =>
    intro q t k outAcc e hfuel hw
    rcases le_or_lt k q.length with hk | hk
    · -- inBuf is an all-data prefix of the payload
      have htake : (gzFileSyms q t).take k = (q.take k).map GzSym.data := by
        unfold gzFileSyms
        rw [List.take_append_eq_append_take, List.map_take]
        have : k - (q.map GzSym.data).length = 0 := by simp; omega
        rw [this]
        simp
      have hdrop : (gzFileSyms q t).drop k = gzFileSyms (q.drop k) t := by
        unfold gzFileSyms
        rw [List.drop_append_eq_append_drop]
        have h0 : k - (q.map GzSym.data).length = 0 := by simp; omega
        rw [h0, List.drop_zero, List.map_drop]
      have hlen_take : (q.take k).length = k := by simp; omega
      have hres : inflateGo ((q.take k).map GzSym.data) (w - outAcc.length) =
          ⟨q.take k, [], false, .ok⟩ :=
        inflateGo_all_data _ _ (by simp; omega)
      simp only [gzRawStreamReadLoop, htake, hdrop, inflateModel, if_false, Bool.false_eq_true,
        hres]
      simp only [List.isEmpty_nil, Bool.not_true, Bool.false_eq_true, if_false, ite_self]
      by_cases hq : gzFileSyms (List.drop k q) t = []
      · have hqnil : List.drop k q = [] ∧ t = false := by
          unfold gzFileSyms at hq
          rcases List.append_eq_nil.mp hq with ⟨h1, h2⟩
          refine ⟨List.map_eq_nil_iff.mp h1, ?_⟩
          by_contra hcon
          simp [Bool.not_eq_false] at hcon
          simp [hcon] at h2
        have hkq : k = q.length := by
          have := List.drop_eq_nil_iff.mp hqnil.1
          omega
        rw [hq, hqnil.2]
        simp only [List.take_nil, List.drop_nil, List.isEmpty_nil, if_true, if_pos rfl]
        have htk : List.take k q = q := by
          rw [hkq]
          exact List.take_length q
        simp [htk, Nat.lt_of_lt_of_le Nat.zero_lt_one hc]
      · have hlen1 : 0 < (gzFileSyms (List.drop k q) t).length := List.length_pos.mpr hq
        have hlsyms : (gzFileSyms (List.drop k q) t).length =
            q.length - k + (if t = true then 1 else 0) := by
          unfold gzFileSyms
          cases t <;> simp
        have hlsyms0 : (gzFileSyms q t).length = q.length + (if t = true then 1 else 0) := by
          unfold gzFileSyms
          cases t <;> simp
        have htknil : ¬((List.take cChunk (gzFileSyms (List.drop k q) t)).isEmpty = true) := by
          rw [List.isEmpty_iff]
          rw [List.take_eq_nil_iff]
          push_neg
          exact ⟨by omega, hq⟩
        rw [if_neg htknil]
        have hlw : ¬((outAcc ++ List.take k q).length = w) := by
          simp only [List.length_append, hlen_take]
          omega
        rw [if_neg hlw]
        have hfuel2 : (gzFileSyms (List.drop k q) t).length - cChunk + 2 ≤ fuel := by
          cases t <;> simp_all <;> omega
        have hw2 : (outAcc ++ List.take k q).length + (List.drop k q).length + 1 ≤ w := by
          simp only [List.length_append, hlen_take, List.length_drop]
          omega
        rw [ih (List.drop k q) t cChunk (outAcc ++ List.take k q) _ hfuel2 hw2]
        simp [List.append_assoc]
    · -- the whole remaining stream is already in the input buffer
      have hlsyms0 : (gzFileSyms q t).length = q.length + (if t = true then 1 else 0) := by
        unfold gzFileSyms
        cases t <;> simp
      have htakeB : List.take k (gzFileSyms q t) = gzFileSyms q t := by
        apply List.take_of_length_le
        cases t <;> simp_all <;> omega
      have hdropB : List.drop k (gzFileSyms q t) = [] := by
        apply List.drop_eq_nil_of_le
        cases t <;> simp_all
      cases t with
      | true =>
        have hres : inflateGo (q.map GzSym.data ++ [GzSym.fin]) (w - outAcc.length) =
            ⟨q, [], true, .streamEnd⟩ :=
          inflateGo_data_fin q _ (by omega)
        have hsy : gzFileSyms q true = q.map GzSym.data ++ [GzSym.fin] := by
          unfold gzFileSyms
          simp
        have htakeB2 : List.take k (gzFileSyms q true) = q.map GzSym.data ++ [GzSym.fin] := by
          rw [htakeB, hsy]
        simp only [gzRawStreamReadLoop, htakeB2, hdropB, inflateModel, Bool.false_eq_true,
          if_false, hres]
        simp [Nat.lt_of_lt_of_le Nat.zero_lt_one hc]
      | false =>
        have hres : inflateGo (q.map GzSym.data) (w - outAcc.length) =
            ⟨q, [], false, .ok⟩ :=
          inflateGo_all_data q _ (by omega)
        have hsy : gzFileSyms q false = q.map GzSym.data := by
          unfold gzFileSyms
          simp
        have htakeB2 : List.take k (gzFileSyms q false) = q.map GzSym.data := by
          rw [htakeB, hsy]
        simp only [gzRawStreamReadLoop, htakeB2, hdropB, inflateModel, Bool.false_eq_true,
          if_false, hres]
        simp [Nat.lt_of_lt_of_le Nat.zero_lt_one hc]

/-- C6: `GzRawStreamRead` returns DecompressFail with the truncation errmsg
exactly when a zero-byte read at EOF happens while the inflate stream is
still mid-member (the member end marker never arrived); when the member is
properly terminated the full payload is delivered and the call - as well as
any further call on the resulting ended-at-EOF state - returns Success. -/
theorem gz_truncation_exactly_mid_member (payload : List Nat) (t : Bool) (cChunk w : Nat)
    (hc : 1 ≤ cChunk) (hw : payload.length + 1 ≤ w) :
    GzRawStreamRead cChunk w (gzRawInitFromOpen (gzFileSyms payload t)) =
      ⟨(if t = false ∧ payload ≠ [] then PglErr.decompressFail else PglErr.success),
       (if t = false ∧ payload ≠ [] then some kShortErrRfileTruncatedGz else none),
       payload, ⟨[], t, [], true⟩⟩ ∧
    GzRawStreamRead cChunk w ⟨[], t, [], true⟩ =
      ⟨PglErr.success, none, [], ⟨[], t, [], true⟩⟩ := by
  constructor
  · by_cases hnil : gzFileSyms payload t = []
    · have h2 : payload = [] ∧ t = false := by
        unfold gzFileSyms at hnil
        rcases List.append_eq_nil.mp hnil with ⟨h1, h2⟩
        refine ⟨List.map_eq_nil_iff.mp h1, ?_⟩
        by_contra hcon
        simp [Bool.not_eq_false] at hcon
        simp [hcon] at h2
      rcases h2 with ⟨hp, ht⟩
      subst hp
      subst ht
      rfl
    · unfold GzRawStreamRead gzRawInitFromOpen
      have hne : ((gzFileSyms payload t).take 16).isEmpty = false := by
        have hnotnil : List.take 16 (gzFileSyms payload t) ≠ [] := by
          rw [Ne, List.take_eq_nil_iff]
          push_neg
          exact ⟨by omega, hnil⟩
        exact Bool.eq_false_iff.mpr (fun hI => hnotnil (List.isEmpty_iff.mp hI))
      rw [hne]
      simp only [Bool.false_and, Bool.false_eq_true, if_false]
      have hloop := gzLoop_spec cChunk w hc (((gzFileSyms payload t).drop 16).length + 2)
        payload t 16 [] (decide ((gzFileSyms payload t).length < 16))
        (by rw [List.length_drop]) (by simpa using hw)
      rw [hloop]
      have hpay : payload ≠ [] ∨ t = true := by
        by_contra hcon
        push_neg at hcon
        apply hnil
        unfold gzFileSyms
        simp [hcon.1, hcon.2]
      cases t with
      | true => simp
      | false =>
        have : payload ≠ [] := by
          rcases hpay with h | h
          · exact h
          · exact absurd h (by simp)
        simp [this]
  · unfold GzRawStreamRead
    rfl

/-- C6, witness: a two-byte truncated member with chunk size 4 and a
3-byte window fails with the truncation message; the terminated-state call is
a clean success. -/
theorem gz_truncation_witness :
    GzRawStreamRead 4 3 (gzRawInitFromOpen (gzFileSyms [3, 4] false)) =
      ⟨(if false = false ∧ ([3, 4] : List Nat) ≠ [] then PglErr.decompressFail
        else PglErr.success),
       (if false = false ∧ ([3, 4] : List Nat) ≠ [] then some kShortErrRfileTruncatedGz
        else none),
       [3, 4], ⟨[], false, [], true⟩⟩ ∧
    GzRawStreamRead 4 3 ⟨[], false, [], true⟩ =
      ⟨PglErr.success, none, [], ⟨[], false, [], true⟩⟩ :=
  gz_truncation_exactly_mid_member [3, 4] false 4 3 (by decide) (by decide)

/-- Modelled from the spec: the BGZF variant of `IsBgzfHeader` check applied
at offset `pos` of a raw byte buffer (the header lives in a file not under
`src/`); same 16-byte conditions as `IsBgzfHeader`, over `Nat`-valued
bytes. -/
def IsBgzfHeaderAt (buf : List Nat) (pos : Nat) : Bool :=
  buf.getD pos 256 == 0x1f && buf.getD (pos + 1) 256 == 0x8b &&
  buf.getD (pos + 2) 256 == 0x08 && buf.getD (pos + 3) 256 &&& 4 == 4 &&
  buf.getD (pos + 10) 256 == 6 && buf.getD (pos + 11) 256 == 0 &&
  buf.getD (pos + 12) 256 == 0x42 && buf.getD (pos + 13) 256 == 0x43 &&
  buf.getD (pos + 14) 256 == 2 && buf.getD (pos + 15) 256 == 0

/-- Error string used by the invalid-BGZF arm; the constant lives in a header
not under `src/` and the spec names the message "invalid BGZF". -/
def kShortErrInvalidBgzf : String := "invalid BGZF"

/-- Outcome of examining the compressed block at the current input position
inside the sync BGZF decode loop. -/
inductive BgzfStepResult where
  | fail (reterr : PglErr) (errmsg : String)
  | stopNoConsume (inPosKept : Nat)
  | block (nextInPos : Nat) (out : List Nat)
  | refill
deriving DecidableEq, Repr

/-- Value `bsize_minus1`: the little-endian `uint16_t` at offset 16 of the
block header (source line 509). -/
def bgzfBsizeMinus1 (inBuf : List Nat) (inPos : Nat) : Nat :=
  inBuf.getD (inPos + 16) 0 + 256 * inBuf.getD (inPos + 17) 0

/-- Value `out_size`: the little-endian `uint32_t` stored at offset
`in_size + 22` of the block, `in_size = bsize_minus1 - 25` being the deflate
payload length (source lines 516-517). -/
def bgzfStoredOutSize (inBuf : List Nat) (inPos csize : Nat) : Nat :=
  inBuf.getD (inPos + csize + 22) 0 + 256 * inBuf.getD (inPos + csize + 23) 0 +
    65536 * inBuf.getD (inPos + csize + 24) 0 + 16777216 * inBuf.getD (inPos + csize + 25) 0

/-- One examination of the input buffer by the sync BGZF decode loop of
`TextRfileAdvance` (source lines 500-531): with more than 25 bytes buffered,
verify the BGZF header at the current position, read `bsize_minus1` and
require it at least 25; when the whole block is buffered
(`bsize_minus1 < n_inbytes`), read the stored uncompressed size from the
trailer, require it at most 65536, stop without consuming when it exceeds the
remaining output window `wrem` (the loop then records `in_pos` at the block
start), and otherwise run the black-box block decompressor `ldc` on the
`bsize_minus1 - 25` deflate bytes at offset 18, a failure being invalid
BGZF.  With at most 25 bytes buffered, or a partially buffered block, the
loop goes to its refill path (lines 532-547). -/
def bgzfBlockStep (ldc : List Nat → Nat → Option (List Nat)) (inBuf : List Nat)
    (inPos inSize wrem : Nat) : BgzfStepResult :=
  if 25 < inSize - inPos then
    if !(IsBgzfHeaderAt inBuf inPos) then .fail .decompressFail kShortErrInvalidBgzf
    else if bgzfBsizeMinus1 inBuf inPos < 25 then
      .fail .decompressFail kShortErrInvalidBgzf
    else if bgzfBsizeMinus1 inBuf inPos < inSize - inPos then
      if 65536 < bgzfStoredOutSize inBuf inPos (bgzfBsizeMinus1 inBuf inPos - 25) then
        .fail .decompressFail kShortErrInvalidBgzf
      else if wrem < bgzfStoredOutSize inBuf inPos (bgzfBsizeMinus1 inBuf inPos - 25) then
        .stopNoConsume inPos
      else
        match ldc ((inBuf.drop (inPos + 18)).take (bgzfBsizeMinus1 inBuf inPos - 25))
            (bgzfStoredOutSize inBuf inPos (bgzfBsizeMinus1 inBuf inPos - 25)) with
        | none => .fail .decompressFail kShortErrInvalidBgzf
        | some out => .block (inPos + bgzfBsizeMinus1 inBuf inPos + 1) out
    else .refill
  else .refill

/-- C7: inside the sync BGZF decode loop, for a position with more than 25
input bytes buffered, a failed header magic check, a `bsize_minus1` below 25,
or (for a fully buffered block) a stored uncompressed size above 65536 each
fail with DecompressFail and errmsg "invalid BGZF"; and a fully buffered
valid block whose uncompressed size exceeds the remaining output window makes
the loop stop without consuming any of its bytes, leaving `in_pos` at the
block's start. -/
theorem bgzf_block_step_checks (ldc : List Nat → Nat → Option (List Nat))
    (inBuf : List Nat) (inPos inSize wrem : Nat) (hn : 25 < inSize - inPos) :
    (IsBgzfHeaderAt inBuf inPos = false →
      bgzfBlockStep ldc inBuf inPos inSize wrem =
        .fail .decompressFail kShortErrInvalidBgzf) ∧
    (bgzfBsizeMinus1 inBuf inPos < 25 →
      bgzfBlockStep ldc inBuf inPos inSize wrem =
        .fail .decompressFail kShortErrInvalidBgzf) ∧
    (IsBgzfHeaderAt inBuf inPos = true → 25 ≤ bgzfBsizeMinus1 inBuf inPos →
      bgzfBsizeMinus1 inBuf inPos < inSize - inPos →
      65536 < bgzfStoredOutSize inBuf inPos (bgzfBsizeMinus1 inBuf inPos - 25) →
      bgzfBlockStep ldc inBuf inPos inSize wrem =
        .fail .decompressFail kShortErrInvalidBgzf) ∧
    (IsBgzfHeaderAt inBuf inPos = true → 25 ≤ bgzfBsizeMinus1 inBuf inPos →
      bgzfBsizeMinus1 inBuf inPos < inSize - inPos →
      bgzfStoredOutSize inBuf inPos (bgzfBsizeMinus1 inBuf inPos - 25) ≤ 65536 →
      wrem < bgzfStoredOutSize inBuf inPos (bgzfBsizeMinus1 inBuf inPos - 25) →
      bgzfBlockStep ldc inBuf inPos inSize wrem = .stopNoConsume inPos) := by
  refine ⟨?_, ?_, ?_, ?_⟩
  · intro h
    simp [bgzfBlockStep, hn, h]
  · intro h
    unfold bgzfBlockStep
    rw [if_pos hn]
    by_cases hh : IsBgzfHeaderAt inBuf inPos
    · simp [hh, h]
    · simp [hh]
  · intro hh h25 hfull hbig
    simp [bgzfBlockStep, hn, hh, Nat.not_lt.mpr h25, hfull, hbig]
  · intro hh h25 hfull hbig hwin
    simp [bgzfBlockStep, hn, hh, Nat.not_lt.mpr h25, hfull, Nat.not_lt.mpr hbig, hwin]

/-- Stored-block toy decompressor standing in for libdeflate in the witness:
succeeds exactly when the payload length matches the stored size. -/
def ldcStored (l : List Nat) (n : Nat) : Option (List Nat) :=
  if l.length = n then some l else none

/-- Concrete 28-byte input: one valid 27-byte BGZF block (`bsize_minus1` 26,
one deflate payload byte, stored uncompressed size 1) plus one byte of the
next block. -/
def bgzfWitnessBuf : List Nat :=
  [0x1f, 0x8b, 0x08, 0x04, 0, 0, 0, 0, 0, 0, 6, 0, 0x42, 0x43, 2, 0,
   26, 0, 7, 0, 0, 0, 0, 1, 0, 0, 0, 0x1f]

/-- C7, witness: on the concrete buffer with a zero-byte output window the
step stops without consuming, leaving `in_pos` at the block start. -/
theorem bgzf_block_step_checks_witness :
    bgzfBlockStep ldcStored bgzfWitnessBuf 0 28 0 = BgzfStepResult.stopNoConsume 0 :=
  (bgzf_block_step_checks ldcStored bgzfWitnessBuf 0 28 0 (by decide)).2.2.2
    (by decide) (by decide) (by decide) (by decide) (by decide)

end Plink2
